import Mathlib

set_option maxRecDepth 8000

/-!
Verification development for the Scholar Inbox scraping pipeline
(`src/scraper.py`, `src/arxiv_client.py`).

The definitions below are a shallow embedding of the pure data flow of the
scraper: Python dictionaries become structures with `Option` fields, Python
truthiness (`x or y`) becomes explicit helpers, JavaScript string/regex
operations become executable functions over `List Char`, and fallible Python
code becomes `Except`/`Option` returning functions.  Theorems then settle the
frozen specification claims against these definitions.
-/

/-! ## Python truthiness helpers -/

/-- Python truthiness of an optional string: `None` and the empty string are
falsy, every other string is truthy. -/
def pyTruthy : Option String → Bool
  | some s => s ≠ ""
  | none => false

/-- Python `a or b` on two optional strings (as produced by `dict.get`):
keeps `a` when it is a non-empty string, otherwise falls back to `b`. -/
def pyOrOptStr : Option String → Option String → Option String
  | some s, b => if s = "" then b else some s
  | none, b => b

/-- Python `a or b` on two lists: keeps `a` when non-empty. -/
def pyOrList {α : Type} (a b : List α) : List α :=
  if a.isEmpty then b else a

/-- Python falsiness of an optional string, as a proposition. -/
def pyFalsy (o : Option String) : Prop := o = none ∨ o = some ""

/-- Python slicing `s[:n]` on a string: the first `n` characters (code
points), or the whole string when it is shorter. -/
def pyStrTake (s : String) (n : Nat) : String := String.mk (s.data.take n)

theorem pyOrOptStr_of_truthy (s : String) (b : Option String) (h : s ≠ "") :
    pyOrOptStr (some s) b = some s := by
  simp [pyOrOptStr, h]

theorem pyOrOptStr_of_falsy (a b : Option String) (h : pyFalsy a) :
    pyOrOptStr a b = b := by
  rcases h with h | h <;> subst h <;> simp [pyOrOptStr]

/-! ## Keep-first deduplication by key

Both figure deduplication (`scraper.py` lines 757-767 and 903-913) and the
share-button y-position filter (`scraper.py` lines 144-157) follow the same
Python/JavaScript idiom: iterate in order, keep an element only when its key
has not been seen before, remembering seen keys in a set. -/

/-- Seen-set loop of the deduplication idiom: `seen` is the set of keys already
kept (a membership-queried list models the Python `set` / JS `Set`). -/
def dedupByKeyAux {α κ : Type} [DecidableEq κ] (key : α → κ) :
    List κ → List α → List α
  | _, [] => []
  | seen, x :: xs =>
    if key x ∈ seen then dedupByKeyAux key seen xs
    else x :: dedupByKeyAux key (key x :: seen) xs

/-- Deduplicate a list by a key function, keeping the first occurrence of each
key, exactly as the seen-set loops in the scraper do. -/
def dedupByKey {α κ : Type} [DecidableEq κ] (key : α → κ) (l : List α) : List α :=
  dedupByKeyAux key [] l

/-- Reference formulation of keep-first deduplication: keep the head and
recursively drop every later element sharing its key. -/
def keepFirstByKey {α κ : Type} [DecidableEq κ] (key : α → κ) : List α → List α
  | [] => []
  | x :: xs => x :: keepFirstByKey key (xs.filter (fun y => key y != key x))
termination_by l => l.length
decreasing_by
  simp only [List.length_cons]
  exact Nat.lt_succ_of_le (List.length_filter_le _ _)

theorem dedupByKeyAux_eq_keepFirst {α κ : Type} [DecidableEq κ] (key : α → κ) :
    ∀ (l : List α) (seen : List κ),
      dedupByKeyAux key seen l =
        keepFirstByKey key (l.filter (fun y => !(seen.contains (key y))))
  | [], seen => by simp [dedupByKeyAux, keepFirstByKey]
  | x :: xs, seen => by
    by_cases hx : key x ∈ seen
    · have hxc : seen.contains (key x) = true := List.elem_eq_true_of_mem hx
      simp only [dedupByKeyAux, if_pos hx, List.filter_cons, hxc,
        Bool.not_true]
      exact dedupByKeyAux_eq_keepFirst key xs seen
    · have hxc : seen.contains (key x) = false := by
        rcases Bool.eq_false_or_eq_true (seen.contains (key x)) with hc | hc
        · exact absurd (List.mem_of_elem_eq_true hc) hx
        · exact hc
      simp only [dedupByKeyAux, if_neg hx, List.filter_cons, hxc,
        Bool.not_false, if_pos]
      rw [keepFirstByKey, List.filter_filter]
      congr 1
      rw [dedupByKeyAux_eq_keepFirst key xs (key x :: seen)]
      congr 1
      apply List.filter_congr
      intro y _
      simp only [List.contains_cons, Bool.not_or, Bool.and_comm]
      rfl
termination_by l _ => l.length

theorem dedupByKey_eq_keepFirst {α κ : Type} [DecidableEq κ] (key : α → κ)
    (l : List α) : dedupByKey key l = keepFirstByKey key l := by
  rw [dedupByKey, dedupByKeyAux_eq_keepFirst]
  congr 1
  simp

/-! ## Figure deduplication (`scraper.py` lines 757-767 / 903-913) -/

/-- Raw figure datum as produced by the in-page extraction script: an image
URL plus a caption string. -/
structure FigData where
  url : String
  caption : String
deriving DecidableEq, Repr

/-- Key used by the figure deduplication loop: the URL paired with the first
50 characters of the caption (empty captions contribute the empty string,
mirroring `caption_prefix = fig_data['caption'][:50] if fig_data['caption']
else ''`). -/
def figDedupKey (f : FigData) : String × String :=
  (f.url, if f.caption ≠ "" then pyStrTake f.caption 50 else "")

/-- Figure deduplication as implemented identically in
`_extract_teaser_figures_generic` and `_extract_teaser_figures_for_arxiv`:
keep a figure only when its `(url, caption-prefix)` key is unseen. -/
def dedup_figures (l : List FigData) : List FigData :=
  dedupByKey figDedupKey l

theorem figDedupKey_eq (f : FigData) :
    figDedupKey f = (f.url, pyStrTake f.caption 50) := by
  by_cases h : f.caption = ""
  · simp [figDedupKey, h, pyStrTake]
  · simp [figDedupKey, h]

/-- C3: Figure deduplication keys each extracted figure by the pair
(image_url, first 50 characters of caption); among figures sharing a key only
the first in encounter order survives, in its original position (the dedup
loop equals the keep-first-by-key recursion); two figures with identical URL
whose captions share the same first 50 characters collapse to one retaining
the first-encountered caption, while two figures with the same URL but
differing 50-character caption prefixes both survive as distinct. -/
theorem c3_figure_dedup :
    (∀ l : List FigData, dedup_figures l = keepFirstByKey figDedupKey l)
    ∧ (∀ f1 f2 : FigData, f1.url = f2.url →
        pyStrTake f1.caption 50 = pyStrTake f2.caption 50 →
        dedup_figures [f1, f2] = [f1])
    ∧ (∀ f1 f2 : FigData, f1.url = f2.url →
        pyStrTake f1.caption 50 ≠ pyStrTake f2.caption 50 →
        dedup_figures [f1, f2] = [f1, f2]) := by
  refine ⟨fun l => dedupByKey_eq_keepFirst figDedupKey l, ?_, ?_⟩
  · intro f1 f2 hu hc
    have hk : figDedupKey f2 = figDedupKey f1 := by
      rw [figDedupKey_eq, figDedupKey_eq, hu, hc]
    simp [dedup_figures, dedupByKey, dedupByKeyAux, hk]
  · intro f1 f2 hu hc
    have hk : figDedupKey f2 ≠ figDedupKey f1 := by
      rw [figDedupKey_eq, figDedupKey_eq]
      intro h
      exact hc (congrArg Prod.snd h).symm
    simp [dedup_figures, dedupByKey, dedupByKeyAux, hk]

/-- Witness for C3 at concrete figures: two same-URL figures whose captions
agree on the first 50 characters collapse to the first; two same-URL figures
with different caption prefixes both survive. -/
theorem c3_figure_dedup_witness :
    dedup_figures
        [⟨"u", "01234567890123456789012345678901234567890123456789X"⟩,
         ⟨"u", "01234567890123456789012345678901234567890123456789Y"⟩] =
      [⟨"u", "01234567890123456789012345678901234567890123456789X"⟩]
    ∧ dedup_figures [⟨"u", "abc"⟩, ⟨"u", "abd"⟩] = [⟨"u", "abc"⟩, ⟨"u", "abd"⟩] :=
  ⟨c3_figure_dedup.2.1 _ _ rfl (by decide),
   c3_figure_dedup.2.2 _ _ rfl (by decide)⟩

/-! ## Teaser image filename filter (`scraper.py` lines 680-690 / 826-836) -/

/-- Filename extraction used by the in-page figure filter:
`src.substring(src.lastIndexOf('/') + 1)`, the segment after the last slash,
or the whole string when no slash occurs. -/
def fileNameChars (l : List Char) : List Char :=
  (l.reverse.takeWhile (fun c => c != '/')).reverse

/-- String wrapper for `fileNameChars`. -/
def fileNameOfUrl (src : String) : String :=
  String.mk (fileNameChars src.data)

/-- Teaser-image filename pattern of the in-page filter: digits, a dot,
digits, a dot, then jpg or jpeg, case-insensitively, matching the whole
filename (the anchored case-insensitive regex in the page script). -/
def teaserNameMatch (s : String) : Bool :=
  let l := s.data
  let d1 := l.takeWhile Char.isDigit
  match l.dropWhile Char.isDigit with
  | '.' :: r2 =>
    let d2 := r2.takeWhile Char.isDigit
    match r2.dropWhile Char.isDigit with
    | '.' :: ext =>
      !d1.isEmpty && !d2.isEmpty &&
        (ext.map Char.toLower == ['j', 'p', 'g'] ||
         ext.map Char.toLower == ['j', 'p', 'e', 'g'])
    | _ => false
  | _ => false

/-- Images of one container level that pass the filename filter
(`validImages` in the page script). -/
def validImages (level : List String) : List String :=
  level.filter (fun src => teaserNameMatch (fileNameOfUrl src))

/-- Ancestor-level search of the figure extractor: the first level whose
filtered image list is non-empty wins and the search stops there. -/
def findWinningLevel : List (List String) → Option (List String)
  | [] => none
  | lv :: rest =>
    if (validImages lv).isEmpty then findWinningLevel rest else some lv

/-- Image URLs the figure extractor ends up processing: the filename-filtered
images of the winning level among the first 15 ancestor levels. -/
def extractedTeaserUrls (levels : List (List String)) : List String :=
  match findWinningLevel (levels.take 15) with
  | none => []
  | some lv => validImages lv

theorem findWinningLevel_some {ls : List (List String)} {lv : List String}
    (h : findWinningLevel ls = some lv) : (validImages lv).isEmpty = false := by
  induction ls with
  | nil => simp [findWinningLevel] at h
  | cons a rest ih =>
    by_cases he : (validImages a).isEmpty
    · rw [findWinningLevel, if_pos he] at h
      exact ih h
    · rw [findWinningLevel, if_neg he] at h
      cases h
      exact Bool.eq_false_iff.mpr he

/-- C4: an image whose filename (URL segment after the final slash) does not
match the digits-dot-digits-dot-jpg/jpeg pattern is never included in the
extracted teaser-figure list, and a container level wins the figure search
only when it holds at least one image matching that pattern. -/
theorem c4_teaser_filename_filter :
    (∀ (levels : List (List String)) (u : String),
        u ∈ extractedTeaserUrls levels →
        teaserNameMatch (fileNameOfUrl u) = true)
    ∧ (∀ (levels : List (List String)) (lv : List String),
        findWinningLevel (levels.take 15) = some lv →
        ∃ u ∈ lv, teaserNameMatch (fileNameOfUrl u) = true) := by
  constructor
  · intro levels u hu
    rw [extractedTeaserUrls] at hu
    cases hfw : findWinningLevel (levels.take 15) with
    | none => rw [hfw] at hu; simp at hu
    | some lv =>
      rw [hfw] at hu
      exact (List.mem_filter.mp hu).2
  · intro levels lv h
    have hne := findWinningLevel_some h
    rcases List.exists_mem_of_ne_nil (validImages lv)
        (by simpa [List.isEmpty_iff] using hne) with ⟨u, hu⟩
    exact ⟨u, (List.mem_filter.mp hu).1, (List.mem_filter.mp hu).2⟩

/-- Witness for C4 at a concrete level chain: a png image is skipped, and the
second level wins with its matching jpg image. -/
theorem c4_teaser_filename_filter_witness :
    teaserNameMatch (fileNameOfUrl "http://x/123.0.jpg") = true
    ∧ ∃ u ∈ ["http://x/123.0.jpg", "http://x/fig.png"],
        teaserNameMatch (fileNameOfUrl u) = true :=
  ⟨c4_teaser_filename_filter.1
      [["http://x/a.png"], ["http://x/123.0.jpg", "http://x/fig.png"]]
      "http://x/123.0.jpg" (by decide),
   c4_teaser_filename_filter.2
      [["http://x/a.png"], ["http://x/123.0.jpg", "http://x/fig.png"]]
      ["http://x/123.0.jpg", "http://x/fig.png"] (by decide)⟩

/-! ## Relevance/score locator (`scraper.py` lines 345-418) -/

/-- Value of a digit character list read in base 10. -/
def decValue (l : List Char) : Nat :=
  l.foldl (fun acc c => acc * 10 + (c.toNat - Char.toNat '0')) 0

/-- Canonical decimal literal test: non-empty, all ASCII digits, and no
leading zero, so the text equals the decimal rendering of its value.  This is
what the page script checks with `parseInt(text)` followed by
`text === num.toString()` (together with `num >= 0`). -/
def isCanonDecChars (l : List Char) : Bool :=
  !l.isEmpty && l.all Char.isDigit && (l.head? != some '0' || l == ['0'])

/-- Whitespace trimming of a character list, modelling the JavaScript
`text.trim()` call on element text. -/
def trimChars (l : List Char) : List Char :=
  ((l.dropWhile Char.isWhitespace).reverse.dropWhile Char.isWhitespace).reverse

/-- Candidate-number extraction for one element text (`scraper.py` lines
363-369): the trimmed text must be exactly an integer literal in [0, 10000),
and probable publication years in [2000, 2100] are skipped. -/
def candidateNum (s : String) : Option Nat :=
  let t := trimChars s.data
  if isCanonDecChars t then
    let n := decValue t
    if n < 10000 ∧ ¬(2000 ≤ n ∧ n ≤ 2100) then some n else none
  else none

/-- Candidate numbers found at one ancestor level, in element traversal
order (`numbersFound`). -/
def levelCandidates (texts : List String) : List Nat :=
  texts.filterMap candidateNum

/-- Candidates restricted to [0, 1000) (`validNumbers`). -/
def levelValidNumbers (texts : List String) : List Nat :=
  (levelCandidates texts).filter (fun n => n < 1000)

/-- Range test of the contiguous-triple scan: relevance in [0,100],
thumbs-up in [0,50], read count in [0,1000]. -/
def tripleOK (x : Nat × Nat × Nat) : Bool :=
  decide (x.1 ≤ 100 ∧ x.2.1 ≤ 50 ∧ x.2.2 ≤ 1000)

/-- Contiguous-triple scan (`scraper.py` lines 390-409): try each window of
three consecutive valid numbers in traversal order and return the first
window passing the range test. -/
def findTriple : List Nat → Option (Nat × Nat × Nat)
  | r :: t :: v :: rest =>
    if r ≤ 100 ∧ t ≤ 50 ∧ v ≤ 1000 then some (r, t, v)
    else findTriple (t :: v :: rest)
  | _ => none

/-- All contiguous windows of three consecutive elements, in order. -/
def slidingTriples : List Nat → List (Nat × Nat × Nat)
  | r :: t :: v :: rest => (r, t, v) :: slidingTriples (t :: v :: rest)
  | _ => []

/-- Ancestor-level walk of the locator: the first level whose valid-number
list yields a satisfying triple wins and the walk stops immediately. -/
def findRelevanceAux : List (List String) → Option (Nat × Nat × Nat)
  | [] => none
  | lv :: rest =>
    match findTriple (levelValidNumbers lv) with
    | some x => some x
    | none => findRelevanceAux rest

/-- Relevance triple located from the (at most 15 scanned) ancestor levels
of a share button (`for (let i = 0; i < 15; i++)`). -/
def findRelevance (levels : List (List String)) : Option (Nat × Nat × Nat) :=
  findRelevanceAux (levels.take 15)

theorem candidateNum_eq_some {s : String} {n : Nat} :
    candidateNum s = some n ↔
      isCanonDecChars (trimChars s.data) = true ∧ decValue (trimChars s.data) = n ∧
        n < 10000 ∧ ¬(2000 ≤ n ∧ n ≤ 2100) := by
  constructor
  · intro h
    rw [candidateNum] at h
    by_cases hc : isCanonDecChars (trimChars s.data)
    · rw [if_pos hc] at h
      by_cases hr : decValue (trimChars s.data) < 10000 ∧
          ¬(2000 ≤ decValue (trimChars s.data) ∧ decValue (trimChars s.data) ≤ 2100)
      · rw [if_pos hr] at h
        cases h
        exact ⟨hc, rfl, hr.1, hr.2⟩
      · rw [if_neg hr] at h
        cases h
    · rw [if_neg hc] at h
      cases h
  · rintro ⟨hc, hv, h1, h2⟩
    rw [candidateNum, if_pos hc, hv, if_pos ⟨h1, h2⟩]

theorem findTriple_eq_find? :
    ∀ l : List Nat, findTriple l = (slidingTriples l).find? tripleOK
  | [] => rfl
  | [_] => rfl
  | [_, _] => rfl
  | r :: t :: v :: rest => by
    by_cases h : r ≤ 100 ∧ t ≤ 50 ∧ v ≤ 1000
    · have hp : tripleOK (r, t, v) = true := decide_eq_true h
      rw [findTriple, slidingTriples, if_pos h,
        @List.find?_cons_of_pos _ tripleOK (r, t, v) _ hp]
    · have hp : ¬ tripleOK (r, t, v) = true := by
        simpa [tripleOK] using h
      rw [findTriple, slidingTriples, if_neg h,
        @List.find?_cons_of_neg _ tripleOK (r, t, v) _ hp]
      exact findTriple_eq_find? (t :: v :: rest)

theorem mem_of_mem_slidingTriples :
    ∀ {l : List Nat} {r t v : Nat}, (r, t, v) ∈ slidingTriples l →
      r ∈ l ∧ t ∈ l ∧ v ∈ l
  | r0 :: t0 :: v0 :: rest, r, t, v, h => by
    rw [slidingTriples, List.mem_cons] at h
    rcases h with h | h
    · injection h with ha hb
      injection hb with hb hc
      subst ha; subst hb; subst hc
      exact ⟨by simp, by simp, by simp⟩
    · obtain ⟨hr, ht, hv⟩ := mem_of_mem_slidingTriples h
      exact ⟨List.mem_cons_of_mem _ hr, List.mem_cons_of_mem _ ht,
        List.mem_cons_of_mem _ hv⟩

theorem findTriple_some {l : List Nat} {r t v : Nat}
    (h : findTriple l = some (r, t, v)) :
    (r ∈ l ∧ t ∈ l ∧ v ∈ l) ∧ r ≤ 100 ∧ t ≤ 50 ∧ v ≤ 1000 := by
  rw [findTriple_eq_find?] at h
  refine ⟨mem_of_mem_slidingTriples (List.mem_of_find?_eq_some h), ?_⟩
  have := List.find?_some h
  simpa [tripleOK] using this

theorem findRelevanceAux_eq_findSome? :
    ∀ ls : List (List String), findRelevanceAux ls =
      ls.findSome? (fun lv => findTriple (levelValidNumbers lv))
  | [] => rfl
  | lv :: rest => by
    rw [findRelevanceAux, List.findSome?_cons]
    cases findTriple (levelValidNumbers lv) with
    | none => exact findRelevanceAux_eq_findSome? rest
    | some x => rfl

/-- C2: candidate numbers at a level are exactly the elements whose trimmed
text is an integer literal in [0, 10000) excluding [2000, 2100]; from the
candidates restricted to [0, 1000), the first contiguous triple in traversal
order with components in [0,100], [0,50], [0,1000] is selected; the first of
at most 15 ancestor levels yielding such a triple wins and search stops, so
no member of a returned relevance triple lies in [2000, 2100]. -/
theorem c2_relevance_triple_search :
    (∀ (texts : List String) (n : Nat),
        n ∈ levelCandidates texts ↔
          ∃ s ∈ texts, isCanonDecChars (trimChars s.data) = true ∧
            decValue (trimChars s.data) = n ∧ n < 10000 ∧ ¬(2000 ≤ n ∧ n ≤ 2100))
    ∧ (∀ l : List Nat, findTriple l = (slidingTriples l).find? tripleOK)
    ∧ (∀ levels : List (List String),
        findRelevance levels =
          (levels.take 15).findSome?
            (fun lv => findTriple (levelValidNumbers lv)))
    ∧ (∀ (levels : List (List String)) (r t v : Nat),
        findRelevance levels = some (r, t, v) →
          (r ≤ 100 ∧ t ≤ 50 ∧ v ≤ 1000) ∧
          (r < 1000 ∧ t < 1000 ∧ v < 1000) ∧
          ¬(2000 ≤ r ∧ r ≤ 2100) ∧ ¬(2000 ≤ t ∧ t ≤ 2100) ∧
          ¬(2000 ≤ v ∧ v ≤ 2100)) := by
  refine ⟨?_, findTriple_eq_find?, ?_, ?_⟩
  · intro texts n
    rw [levelCandidates, List.mem_filterMap]
    constructor
    · rintro ⟨s, hs, h⟩
      exact ⟨s, hs, candidateNum_eq_some.mp h⟩
    · rintro ⟨s, hs, h⟩
      exact ⟨s, hs, candidateNum_eq_some.mpr h⟩
  · intro levels
    exact findRelevanceAux_eq_findSome? (levels.take 15)
  · intro levels r t v h
    rw [findRelevance, findRelevanceAux_eq_findSome?] at h
    obtain ⟨lv, _, hlv⟩ := List.exists_of_findSome?_eq_some h
    obtain ⟨⟨hr, ht, hv⟩, hrange⟩ := findTriple_some hlv
    have hr' : r < 1000 := by
      have := (List.mem_filter.mp hr).2
      simpa using this
    have ht' : t < 1000 := by
      have := (List.mem_filter.mp ht).2
      simpa using this
    have hv' : v < 1000 := by
      have := (List.mem_filter.mp hv).2
      simpa using this
    exact ⟨hrange, ⟨hr', ht', hv'⟩, by omega, by omega, by omega⟩

/-- Witness for C2 at the specification scenario: candidate texts 2024, 45,
12, 300 at one level; the year 2024 is excluded and (45, 12, 300) is
selected, with no member in [2000, 2100]. -/
theorem c2_relevance_triple_search_witness :
    findRelevance [["2024", "45", "12", "300"]] = some (45, 12, 300)
    ∧ ((45 ≤ 100 ∧ 12 ≤ 50 ∧ 300 ≤ 1000) ∧
        (45 < 1000 ∧ 12 < 1000 ∧ 300 < 1000) ∧
        ¬(2000 ≤ 45 ∧ 45 ≤ 2100) ∧ ¬(2000 ≤ 12 ∧ 12 ≤ 2100) ∧
        ¬(2000 ≤ 300 ∧ 300 ≤ 2100)) :=
  ⟨by decide,
   c2_relevance_triple_search.2.2.2 [["2024", "45", "12", "300"]] 45 12 300
     (by decide)⟩

/-! ## Data model (`models.py`) -/

/-- Relevance scores of a paper (`PaperRelevance` in `models.py`). -/
structure PaperRelevance where
  relevance_score : Nat
  thumbs_up : Nat
  read_by : Nat
deriving DecidableEq, Repr

/-- Teaser figure of a paper (`TeaserFigure` in `models.py`). -/
structure TeaserFigure where
  image_url : String
  caption : String
  local_path : Option String
deriving DecidableEq, Repr

/-- Complete paper record (`Paper` in `models.py`; the externally-filled LLM
fields are omitted as they play no role in assembly). -/
structure Paper where
  title : String
  authors : List String
  abstract : String
  arxiv_id : Option String
  arxiv_url : Option String
  arxiv_html_url : Option String
  github_url : Option String
  conference : Option String
  submitted_date : Option String
  categories : List String
  paper_relevance : Option PaperRelevance
  teaser_figures : List TeaserFigure
deriving DecidableEq, Repr

/-! ## arXiv metadata fetcher (`arxiv_client.py`) -/

/-- Python string strip, modelled on code points. -/
def pyStrip (s : String) : String := String.mk (trimChars s.data)

/-- Raw result of the arXiv API (`arxiv.Result`), with dates already rendered
to `YYYY-MM-DD` strings, as only their rendered form flows onward. -/
structure ArxivApiResult where
  title : Option String
  authors : List String
  summary : Option String
  published : Option String
  updated : Option String
  pdf_url : Option String
  entry_id : Option String
  categories : List String
  doi : Option String
deriving DecidableEq, Repr

/-- Normalized metadata dictionary (the dict built by `_build_metadata`;
only the keys read by the scraper are modelled). -/
structure ArxivMetadata where
  title : Option String
  authors : List String
  abstract : Option String
  published : Option String
  updated : Option String
  pdf_url : Option String
  abs_url : Option String
  doi : Option String
  categories : List String
deriving DecidableEq, Repr

/-- `_build_metadata`: convert a raw API result into the normalized
dictionary: strip title/abstract whitespace, keep author and category order,
derive the abstract-page URL from the entry id when present. -/
def build_metadata (p : ArxivApiResult) : ArxivMetadata :=
  { title := match p.title with
      | some t => if t = "" then none else some (pyStrip t)
      | none => none
    authors := p.authors
    abstract := match p.summary with
      | some a => if a = "" then none else some (pyStrip a)
      | none => none
    published := p.published
    updated := p.updated
    pdf_url := p.pdf_url
    abs_url := match p.entry_id with
      | some e => if e = "" then none else some e
      | none => none
    doi := p.doi
    categories := p.categories }

/-- Error value standing for a raised Python exception. -/
def PyErr : Type := String

/-- `_fetch_paper_metadata_internal` (lines 80-99): the whole interaction
with the upstream service runs inside try/except.  The argument is the
outcome of that interaction: a raised exception, an empty result, or a
paper.  Exceptions and empty results are logged and mapped to None; the
function itself is total, never propagating an exception to its caller. -/
def fetch_paper_metadata_internal
    (outcome : Except PyErr (Option ArxivApiResult)) : Option ArxivMetadata :=
  match outcome with
  | Except.error _ => none
  | Except.ok none => none
  | Except.ok (some p) => some (build_metadata p)

/-! ## Raw per-paper record and assembler (`scraper.py` lines 426-528) -/

/-- Relevance sub-dictionary placed in a raw record by the page script. -/
structure RelDict where
  relevance_score : Nat
  thumbs_up : Nat
  read_by : Nat
deriving DecidableEq, Repr

/-- Mutable `metadata` dictionary of a raw record (the keys the assembler
reads or writes). -/
structure RawMetaDict where
  categories : List String
  submitted_date : Option String
  updated_date : Option String
  pdf_url : Option String
  abs_url : Option String
  doi : Option String
  github_url : Option String
  conference : Option String
  relevance : Option RelDict
deriving DecidableEq, Repr

/-- Raw per-paper dictionary assembled by `_extract_all_papers`. -/
structure RawPaperData where
  title : Option String
  authors : Option String
  arxivId : Option String
  isArxiv : Bool
  paperUrl : Option String
  journal : Option String
  booktitle : Option String
  year : Option String
  metadata : RawMetaDict
deriving DecidableEq, Repr

/-- `_parse_authors`: split the author text on commas, strip each part and
drop the empty ones. -/
def parse_authors (authors_text : String) : List String :=
  if authors_text = "" then []
  else (authors_text.splitOn ",").filterMap (fun a =>
    let s := pyStrip a
    if s = "" then none else some s)

/-- Metadata merge of `_extract_paper_full_info` (lines 456-461): each
fetched field overrides the scraped dictionary entry whenever non-empty. -/
def merge_arxiv_metadata (m : ArxivMetadata) (meta : RawMetaDict) :
    RawMetaDict :=
  { meta with
    categories := pyOrList m.categories meta.categories
    submitted_date := pyOrOptStr m.published meta.submitted_date
    updated_date := pyOrOptStr m.updated meta.updated_date
    pdf_url := pyOrOptStr m.pdf_url meta.pdf_url
    abs_url := pyOrOptStr m.abs_url meta.abs_url
    doi := pyOrOptStr m.doi meta.doi }

/-- Environment of one assembly run: the memoized metadata lookup and the
outcomes of the page-interacting sub-operations (each may raise). -/
structure AssembleEnv where
  arxivMeta : String → Option ArxivMetadata
  abstractArxiv : String → Except PyErr String
  abstractGeneric : Option String → Except PyErr String
  figuresArxiv : String → Except PyErr (List TeaserFigure)
  figuresGeneric : Option String → Except PyErr (List TeaserFigure)

/-- Body of `_extract_paper_full_info` (lines 429-514) without its enclosing
try/except: any exception raised by a sub-operation propagates out as
`Except.error`. -/
def assembleBody (env : AssembleEnv) (raw : RawPaperData) :
    Except PyErr Paper :=
  let authors1 := parse_authors (raw.authors.getD "")
  let hasId := raw.isArxiv && pyTruthy raw.arxivId
  let aid := raw.arxivId.getD ""
  let arxiv_html_url :=
    if hasId then some ("https://arxiv.org/html/" ++ aid) else none
  let arxiv_url0 : Option String :=
    if hasId then some ("https://arxiv.org/abs/" ++ aid) else none
  let fetched := if hasId then env.arxivMeta aid else none
  let title2 := match fetched with
    | some m => pyOrOptStr m.title raw.title
    | none => raw.title
  let authors2 := match fetched with
    | some m => pyOrList m.authors authors1
    | none => authors1
  let meta2 := match fetched with
    | some m => merge_arxiv_metadata m raw.metadata
    | none => raw.metadata
  let arxiv_url1 := if raw.isArxiv then arxiv_url0 else raw.paperUrl
  let meta3 :=
    if raw.isArxiv then meta2
    else if pyTruthy raw.booktitle then { meta2 with conference := raw.booktitle }
    else if pyTruthy raw.journal then { meta2 with conference := raw.journal }
    else meta2
  let paper_relevance := meta3.relevance.map
    (fun r => PaperRelevance.mk r.relevance_score r.thumbs_up r.read_by)
  match (if hasId then env.abstractArxiv aid else Except.ok "") with
  | Except.error e => Except.error e
  | Except.ok ab0 =>
    let metaAbs : Option String := match fetched with
      | some m => match m.abstract with
        | some a => if a = "" then none else some a
        | none => none
      | none => none
    match (match metaAbs with
           | some a => Except.ok a
           | none =>
             if raw.isArxiv then Except.ok ab0
             else env.abstractGeneric title2) with
    | Except.error e => Except.error e
    | Except.ok abstract1 =>
      let paper0 : Paper :=
        { title := title2.getD ""
          authors := authors2
          abstract := abstract1
          arxiv_id := raw.arxivId
          arxiv_url := pyOrOptStr meta3.abs_url arxiv_url1
          arxiv_html_url := arxiv_html_url
          github_url := meta3.github_url
          conference := meta3.conference
          submitted_date := meta3.submitted_date
          categories := meta3.categories
          paper_relevance := paper_relevance
          teaser_figures := [] }
      match (if hasId then env.figuresArxiv aid
             else env.figuresGeneric title2) with
      | Except.error e => Except.error e
      | Except.ok figs => Except.ok { paper0 with teaser_figures := figs }

/-- `_extract_paper_full_info`: the body runs under try/except; a raised
exception is logged and turned into None for that one paper. -/
def extract_paper_full_info (env : AssembleEnv) (raw : RawPaperData) :
    Option Paper :=
  match assembleBody env raw with
  | Except.ok p => some p
  | Except.error _ => none

/-- Per-paper loop of `scrape_papers` (lines 85-91): append each paper whose
extraction produced a value. -/
def scrape_papers_collect (env : AssembleEnv) :
    List RawPaperData → List Paper
  | [] => []
  | r :: rest =>
    match extract_paper_full_info env r with
    | some p => p :: scrape_papers_collect env rest
    | none => scrape_papers_collect env rest

/-- Python slicing `l[:n]` with a possibly negative bound. -/
def pySlice {α : Type} (l : List α) (n : Int) : List α :=
  if 0 ≤ n then l.take n.toNat else l.take ((l.length : Int) + n).toNat

/-- `scrape_papers` (lines 77-92): extract all raw records, apply the cap
(`if max_papers: papers = papers[:max_papers]` — note that a cap of 0 is
falsy, so it is not applied), then run per-paper assembly in order. -/
def scrape_papers (env : AssembleEnv) (extracted : List RawPaperData)
    (max_papers : Option Int) : List Paper :=
  let papers := match max_papers with
    | none => extracted
    | some n => if n ≠ 0 then pySlice extracted n else extracted
  scrape_papers_collect env papers

/-! ## Session metadata cache (`scraper.py` lines 520-528) -/

/-- Session cache lookup (`self._arxiv_metadata_cache`), modelling the dict
as an association list with first-match lookup. -/
def cacheLookup (cache : List (String × ArxivMetadata)) (id : String) :
    Option ArxivMetadata :=
  (cache.find? (fun e => e.1 == id)).map (fun e => e.2)

/-- `_get_arxiv_metadata`: return the cached record when present; otherwise
ask the fetcher, caching a successful result.  The third component records
whether a fetch (network round-trip) was performed. -/
def get_arxiv_metadata (cache : List (String × ArxivMetadata))
    (fetch : String → Option ArxivMetadata) (id : String) :
    Option ArxivMetadata × List (String × ArxivMetadata) × Bool :=
  match cacheLookup cache id with
  | some m => (some m, cache, false)
  | none =>
    match fetch id with
    | some m => (some m, (id, m) :: cache, true)
    | none => (none, cache, true)

theorem assembleBody_arxiv_fields {env : AssembleEnv} {raw : RawPaperData}
    {id : String} {m : ArxivMetadata} {p : Paper}
    (hA : raw.isArxiv = true) (hid : raw.arxivId = some id) (hne : id ≠ "")
    (hm : env.arxivMeta id = some m)
    (hp : extract_paper_full_info env raw = some p) :
    p.title = (pyOrOptStr m.title raw.title).getD "" ∧
    p.authors = pyOrList m.authors (parse_authors (raw.authors.getD "")) ∧
    p.categories = (merge_arxiv_metadata m raw.metadata).categories ∧
    p.submitted_date = (merge_arxiv_metadata m raw.metadata).submitted_date ∧
    p.arxiv_url = pyOrOptStr (merge_arxiv_metadata m raw.metadata).abs_url
      (some ("https://arxiv.org/abs/" ++ id)) := by
  have hT : (raw.isArxiv && pyTruthy raw.arxivId) = true := by
    rw [hA, hid]
    simp [pyTruthy, hne]
  have hPT : pyTruthy (some id) = true := by
    simp [pyTruthy, hne]
  rw [extract_paper_full_info, assembleBody] at hp
  simp only [hT, hid, hA, hm, hPT, Option.getD_some] at hp
  simp only [Bool.and_self, eq_self_iff_true, if_true, ite_true] at hp
  rcases habs : env.abstractArxiv id with e | ab0 <;> rw [habs] at hp
  · simp at hp
  · rcases hfig : env.figuresArxiv id with e | figs <;> rw [hfig] at hp
    · rcases hma : m.abstract with _ | a <;> rw [hma] at hp
      · simp at hp
      · rcases eq_or_ne a "" with ha | ha
        · subst ha
          simp at hp
        · simp [ha] at hp
    · rcases hma : m.abstract with _ | a <;> rw [hma] at hp
      · simp only [Option.some.injEq] at hp
        subst hp
        simp
      · rcases eq_or_ne a "" with ha | ha
        · subst ha
          simp only [ite_true, if_pos rfl, Option.some.injEq] at hp
          subst hp
          simp
        · simp only [if_neg ha, Option.some.injEq] at hp
          subst hp
          simp

theorem pyOrList_of_ne {α : Type} (a b : List α) (h : a ≠ []) :
    pyOrList a b = a := by
  rw [pyOrList, if_neg]
  simpa [List.isEmpty_iff] using h

theorem pyOrList_nil {α : Type} (b : List α) : pyOrList [] b = b := rfl

/-- C1: for every raw record bearing an arXiv identifier whose metadata
fetch succeeds, the assembled Paper takes the fetched value of title,
authors, categories, submitted_date and abs_url (used as arxiv_url), and the
merged metadata dictionary takes the fetched DOI, whenever that value is
non-empty; the heuristically-scraped value is kept only as fallback when the
fetched value is absent or empty. -/
theorem c1_metadata_precedence (env : AssembleEnv) (raw : RawPaperData)
    (id : String) (m : ArxivMetadata) (p : Paper)
    (hA : raw.isArxiv = true) (hid : raw.arxivId = some id) (hne : id ≠ "")
    (hm : env.arxivMeta id = some m)
    (hp : extract_paper_full_info env raw = some p) :
    ((∀ t, m.title = some t → t ≠ "" → p.title = t) ∧
      (pyFalsy m.title → p.title = raw.title.getD "")) ∧
    ((m.authors ≠ [] → p.authors = m.authors) ∧
      (m.authors = [] → p.authors = parse_authors (raw.authors.getD ""))) ∧
    ((m.categories ≠ [] → p.categories = m.categories) ∧
      (m.categories = [] → p.categories = raw.metadata.categories)) ∧
    ((∀ d, m.published = some d → d ≠ "" → p.submitted_date = some d) ∧
      (pyFalsy m.published →
        p.submitted_date = raw.metadata.submitted_date)) ∧
    ((∀ u, m.abs_url = some u → u ≠ "" → p.arxiv_url = some u) ∧
      (pyFalsy m.abs_url → p.arxiv_url =
        pyOrOptStr raw.metadata.abs_url
          (some ("https://arxiv.org/abs/" ++ id)))) ∧
    ((∀ d, m.doi = some d → d ≠ "" →
        (merge_arxiv_metadata m raw.metadata).doi = some d) ∧
      (pyFalsy m.doi →
        (merge_arxiv_metadata m raw.metadata).doi = raw.metadata.doi)) := by
  obtain ⟨ht, hau, hc, hs, hu⟩ := assembleBody_arxiv_fields hA hid hne hm hp
  refine ⟨⟨?_, ?_⟩, ⟨?_, ?_⟩, ⟨?_, ?_⟩, ⟨?_, ?_⟩, ⟨?_, ?_⟩, ⟨?_, ?_⟩⟩
  · intro t hmt htne
    rw [ht, hmt, pyOrOptStr_of_truthy _ _ htne, Option.getD_some]
  · intro hf
    rw [ht, pyOrOptStr_of_falsy _ _ hf]
  · intro hmn
    rw [hau, pyOrList_of_ne _ _ hmn]
  · intro hmn
    rw [hau, hmn, pyOrList_nil]
  · intro hmn
    rw [hc, merge_arxiv_metadata]
    exact pyOrList_of_ne _ _ hmn
  · intro hmn
    rw [hc, merge_arxiv_metadata, hmn, pyOrList_nil]
  · intro d hmd hdne
    rw [hs, merge_arxiv_metadata, hmd, pyOrOptStr_of_truthy _ _ hdne]
  · intro hf
    rw [hs, merge_arxiv_metadata, pyOrOptStr_of_falsy _ _ hf]
  · intro u hmu hune
    rw [hu, merge_arxiv_metadata]
    simp only
    rw [hmu, pyOrOptStr_of_truthy _ _ hune, pyOrOptStr_of_truthy _ _ hune]
  · intro hf
    rw [hu, merge_arxiv_metadata]
    simp only
    rw [pyOrOptStr_of_falsy _ _ hf]
  · intro d hmd hdne
    rw [merge_arxiv_metadata, hmd]
    simp only
    rw [pyOrOptStr_of_truthy _ _ hdne]
  · intro hf
    rw [merge_arxiv_metadata]
    simp only
    rw [pyOrOptStr_of_falsy _ _ hf]

/-- Concrete normalized metadata record used by witnesses. -/
def cMeta : ArxivMetadata :=
  { title := some "API Title"
    authors := ["API Author"]
    abstract := some "API Abstract"
    published := some "2025-01-01"
    updated := some "2025-01-05"
    pdf_url := none
    abs_url := some "https://arxiv.org/abs/1234.5678"
    doi := none
    categories := ["cs.AI"] }

/-- Concrete empty raw metadata dictionary used by witnesses. -/
def cRawMeta : RawMetaDict :=
  { categories := []
    submitted_date := none
    updated_date := none
    pdf_url := none
    abs_url := none
    doi := none
    github_url := none
    conference := none
    relevance := none }

/-- Concrete assembly environment used by witnesses: the metadata fetch
succeeds for id 1234.5678 and every page sub-operation succeeds. -/
def cEnv : AssembleEnv :=
  { arxivMeta := fun i => if i = "1234.5678" then some cMeta else none
    abstractArxiv := fun _ => Except.ok "Scraped abstract"
    abstractGeneric := fun _ => Except.ok ""
    figuresArxiv := fun _ => Except.ok []
    figuresGeneric := fun _ => Except.ok [] }

/-- Concrete raw record bearing an arXiv identifier, used by witnesses. -/
def cRaw : RawPaperData :=
  { title := some "Scraped Title"
    authors := some "Scraped Author"
    arxivId := some "1234.5678"
    isArxiv := true
    paperUrl := none
    journal := some "arXiv"
    booktitle := none
    year := none
    metadata := cRawMeta }

/-- The paper assembled from `cRaw` under `cEnv`. -/
def cPaper : Paper :=
  { title := "API Title"
    authors := ["API Author"]
    abstract := "API Abstract"
    arxiv_id := some "1234.5678"
    arxiv_url := some "https://arxiv.org/abs/1234.5678"
    arxiv_html_url := some "https://arxiv.org/html/1234.5678"
    github_url := none
    conference := none
    submitted_date := some "2025-01-01"
    categories := ["cs.AI"]
    paper_relevance := none
    teaser_figures := [] }

theorem extract_cRaw_eq : extract_paper_full_info cEnv cRaw = some cPaper := by
  rfl

/-- Witness for C1 at the concrete record and metadata: every non-empty
fetched field wins. -/
theorem c1_metadata_precedence_witness :
    cPaper.title = "API Title" ∧ cPaper.authors = ["API Author"] ∧
    cPaper.categories = ["cs.AI"] ∧
    cPaper.submitted_date = some "2025-01-01" ∧
    cPaper.arxiv_url = some "https://arxiv.org/abs/1234.5678" := by
  have h := c1_metadata_precedence cEnv cRaw "1234.5678" cMeta cPaper rfl rfl
    (by decide) rfl extract_cRaw_eq
  refine ⟨h.1.1 "API Title" rfl (by decide),
    h.2.1.1 (by decide),
    h.2.2.1.1 (by decide),
    h.2.2.2.1.1 "2025-01-01" rfl (by decide),
    h.2.2.2.2.1.1 "https://arxiv.org/abs/1234.5678" rfl (by decide)⟩

theorem assembleBody_arxiv_nofetch {env : AssembleEnv} {raw : RawPaperData}
    {id : String} {p : Paper}
    (hA : raw.isArxiv = true) (hid : raw.arxivId = some id) (hne : id ≠ "")
    (hm : env.arxivMeta id = none)
    (hp : extract_paper_full_info env raw = some p) :
    p.title = raw.title.getD "" ∧
    p.authors = parse_authors (raw.authors.getD "") ∧
    p.categories = raw.metadata.categories ∧
    p.submitted_date = raw.metadata.submitted_date := by
  have hT : (raw.isArxiv && pyTruthy raw.arxivId) = true := by
    rw [hA, hid]
    simp [pyTruthy, hne]
  have hPT : pyTruthy (some id) = true := by
    simp [pyTruthy, hne]
  rw [extract_paper_full_info, assembleBody] at hp
  simp only [hT, hid, hA, hm, hPT, Option.getD_some] at hp
  simp only [Bool.and_self, eq_self_iff_true, if_true, ite_true] at hp
  rcases habs : env.abstractArxiv id with e | ab0 <;> rw [habs] at hp
  · simp at hp
  · rcases hfig : env.figuresArxiv id with e | figs <;> rw [hfig] at hp
    · simp at hp
    · simp only [Option.some.injEq] at hp
      subst hp
      simp

/-- C5: the metadata fetch never raises past its boundary: a raised upstream
exception or an empty upstream result is mapped to None (NotFound) by the
total function `fetch_paper_metadata_internal`, and a caller whose fetch came
back None proceeds with the heuristically-scraped fields. -/
theorem c5_fetch_never_raises :
    (∀ e : PyErr, fetch_paper_metadata_internal (Except.error e) = none)
    ∧ fetch_paper_metadata_internal (Except.ok none) = none
    ∧ (∀ q : ArxivApiResult,
        fetch_paper_metadata_internal (Except.ok (some q)) =
          some (build_metadata q))
    ∧ (∀ (env : AssembleEnv) (raw : RawPaperData) (id : String) (p : Paper),
        raw.isArxiv = true → raw.arxivId = some id → id ≠ "" →
        env.arxivMeta id = none →
        extract_paper_full_info env raw = some p →
        p.title = raw.title.getD "" ∧
        p.authors = parse_authors (raw.authors.getD "") ∧
        p.categories = raw.metadata.categories ∧
        p.submitted_date = raw.metadata.submitted_date) := by
  refine ⟨fun _ => rfl, rfl, fun _ => rfl, ?_⟩
  intro env raw id p hA hid hne hm hp
  exact assembleBody_arxiv_nofetch hA hid hne hm hp

/-- Environment whose metadata fetch always misses (NotFound for every id),
with every page sub-operation succeeding. -/
def cEnvNone : AssembleEnv :=
  { arxivMeta := fun _ => none
    abstractArxiv := fun _ => Except.ok "Scraped abstract"
    abstractGeneric := fun _ => Except.ok ""
    figuresArxiv := fun _ => Except.ok []
    figuresGeneric := fun _ => Except.ok [] }

/-- Witness for C5: an upstream exception maps to None, and at the concrete
record the caller keeps the scraped title when the fetch misses. -/
theorem c5_fetch_never_raises_witness :
    fetch_paper_metadata_internal (Except.error "http timeout") = none
    ∧ ((extract_paper_full_info cEnvNone cRaw).getD cPaper).title =
        cRaw.title.getD "" := by
  refine ⟨c5_fetch_never_raises.1 "http timeout", ?_⟩
  have h := c5_fetch_never_raises.2.2.2 cEnvNone cRaw "1234.5678"
    ((extract_paper_full_info cEnvNone cRaw).getD cPaper)
    rfl rfl (by decide) rfl (by rfl)
  exact h.1

/-- C7: an exception raised while assembling one paper makes the assembler
return None for that paper only; the batch loop drops that paper and the
remaining papers are collected exactly as if it were absent. -/
theorem c7_per_paper_isolation :
    (∀ (env : AssembleEnv) (raw : RawPaperData) (e : PyErr),
        assembleBody env raw = Except.error e →
        extract_paper_full_info env raw = none)
    ∧ (∀ (env : AssembleEnv) (l₁ l₂ : List RawPaperData) (r : RawPaperData),
        extract_paper_full_info env r = none →
        scrape_papers_collect env (l₁ ++ r :: l₂) =
          scrape_papers_collect env (l₁ ++ l₂)) := by
  constructor
  · intro env raw e h
    rw [extract_paper_full_info, h]
  · intro env l₁ l₂ r hr
    induction l₁ with
    | nil =>
      simp only [List.nil_append]
      rw [scrape_papers_collect, hr]
    | cons a rest ih =>
      simp only [List.cons_append]
      rw [scrape_papers_collect, scrape_papers_collect]
      cases extract_paper_full_info env a with
      | none => exact ih
      | some q => rw [ih]

/-- Environment in which figure extraction for the arXiv paper raises. -/
def cEnvErr : AssembleEnv :=
  { arxivMeta := fun i => if i = "1234.5678" then some cMeta else none
    abstractArxiv := fun _ => Except.ok "Scraped abstract"
    abstractGeneric := fun _ => Except.ok ""
    figuresArxiv := fun _ => Except.error "boom"
    figuresGeneric := fun _ => Except.ok [] }

/-- Concrete non-arXiv raw record, used by witnesses. -/
def cRawNA : RawPaperData :=
  { title := some "A Long Conference Paper Title"
    authors := some "Author One, Author Two"
    arxivId := none
    isArxiv := false
    paperUrl := some "https://conf.example/paper"
    journal := none
    booktitle := some "CVPR"
    year := some "2025"
    metadata := cRawMeta }

/-- Witness for C7: under `cEnvErr` assembling `cRaw` raises and yields None,
and the batch around it collects exactly the other papers. -/
theorem c7_per_paper_isolation_witness :
    extract_paper_full_info cEnvErr cRaw = none
    ∧ scrape_papers_collect cEnvErr ([cRawNA] ++ cRaw :: [cRawNA]) =
        scrape_papers_collect cEnvErr ([cRawNA] ++ [cRawNA]) := by
  have h1 := c7_per_paper_isolation.1 cEnvErr cRaw "boom" (by rfl)
  exact ⟨h1, c7_per_paper_isolation.2 cEnvErr [cRawNA] [cRawNA] cRaw h1⟩

theorem scrape_papers_collect_length (env : AssembleEnv) :
    ∀ l : List RawPaperData,
      (scrape_papers_collect env l).length ≤ l.length
  | [] => Nat.le_refl 0
  | r :: rest => by
    rw [scrape_papers_collect]
    cases extract_paper_full_info env r with
    | some p =>
      simp only [List.length_cons]
      exact Nat.succ_le_succ (scrape_papers_collect_length env rest)
    | none =>
      simp only [List.length_cons]
      exact Nat.le_succ_of_le (scrape_papers_collect_length env rest)

/-- Counterexample for C8 as stated: with a caller-supplied cap of 0 the
scrape operation still returns one paper, because `if max_papers:` treats the
cap 0 as falsy and skips truncation. -/
theorem c8_cap_counterexample :
    ¬ ((scrape_papers cEnv [cRaw] (some 0)).length ≤ 0) := by
  decide

/-- C8 (amended): for every positive caller-supplied cap N, the scrape
operation truncates the fully-extracted raw-record list to its first N
entries (in document encounter order, after page extraction completes) and
only then assembles, so at most N papers are returned; with no cap the whole
extracted list is assembled.  The amendment excludes a cap of 0, which is
falsy in Python and therefore not applied. -/
theorem c8_cap_truncates_after_extraction (env : AssembleEnv)
    (extracted : List RawPaperData) (n : Int) (hn : 0 < n) :
    scrape_papers env extracted (some n) =
      scrape_papers_collect env (extracted.take n.toNat) ∧
    (scrape_papers env extracted (some n)).length ≤ n.toNat ∧
    scrape_papers env extracted none = scrape_papers_collect env extracted := by
  have hne : n ≠ 0 := by omega
  have h0 : (0 : Int) ≤ n := le_of_lt hn
  have heq : scrape_papers env extracted (some n) =
      scrape_papers_collect env (extracted.take n.toNat) := by
    rw [scrape_papers]
    simp only [hne, ite_true, if_true, ne_eq, not_false_eq_true, if_pos]
    rw [pySlice, if_pos h0]
  refine ⟨heq, ?_, rfl⟩
  rw [heq]
  calc (scrape_papers_collect env (extracted.take n.toNat)).length
      ≤ (extracted.take n.toNat).length :=
        scrape_papers_collect_length env _
    _ ≤ n.toNat := by
        rw [List.length_take]
        exact Nat.min_le_left _ _

/-- Witness for C8 (amended) at a concrete batch of two records capped at
one. -/
theorem c8_cap_truncates_after_extraction_witness :
    scrape_papers cEnv [cRaw, cRaw] (some 1) =
      scrape_papers_collect cEnv ([cRaw, cRaw].take (Int.toNat 1)) ∧
    (scrape_papers cEnv [cRaw, cRaw] (some 1)).length ≤ Int.toNat 1 ∧
    scrape_papers cEnv [cRaw, cRaw] none =
      scrape_papers_collect cEnv [cRaw, cRaw] :=
  c8_cap_truncates_after_extraction cEnv [cRaw, cRaw] 1 (by decide)

/-! ## Memoized metadata lookup (`scraper.py` lines 520-528) -/

theorem cacheLookup_cons (a : String × ArxivMetadata)
    (c : List (String × ArxivMetadata)) (id : String) :
    cacheLookup (a :: c) id =
      if a.1 == id then some a.2 else cacheLookup c id := by
  by_cases h : (a.1 == id) = true
  · rw [cacheLookup, @List.find?_cons_of_pos _ (fun e => e.1 == id) a c h,
      if_pos h]
    rfl
  · rw [cacheLookup, @List.find?_cons_of_neg _ (fun e => e.1 == id) a c h,
      if_neg h]
    rfl

theorem get_arxiv_metadata_preserves {cache : List (String × ArxivMetadata)}
    {id : String} {m : ArxivMetadata}
    (h : cacheLookup cache id = some m)
    (fetch : String → Option ArxivMetadata) (id2 : String) :
    cacheLookup (get_arxiv_metadata cache fetch id2).2.1 id = some m := by
  cases hl : cacheLookup cache id2 with
  | some m0 =>
    rw [get_arxiv_metadata, hl]
    exact h
  | none =>
    cases hf : fetch id2 with
    | none =>
      rw [get_arxiv_metadata, hl, hf]
      exact h
    | some mf =>
      rw [get_arxiv_metadata, hl, hf]
      rw [cacheLookup_cons]
      have hne : ((id2, mf).1 == id) = false := by
        rw [beq_eq_false_iff_ne]
        intro he
        have he2 : id2 = id := he
        rw [he2, h] at hl
        exact Option.noConfusion hl
      rw [hne]
      simpa using h

/-- A sequence of later `_get_arxiv_metadata` calls (each with its own id and
fetch behaviour), returning the final cache state. -/
def run_metadata_calls (cache : List (String × ArxivMetadata)) :
    List (String × (String → Option ArxivMetadata)) →
      List (String × ArxivMetadata)
  | [] => cache
  | c :: rest =>
    run_metadata_calls (get_arxiv_metadata cache c.2 c.1).2.1 rest

theorem run_metadata_calls_preserves {id : String} {m : ArxivMetadata} :
    ∀ (calls : List (String × (String → Option ArxivMetadata)))
      (cache : List (String × ArxivMetadata)),
      cacheLookup cache id = some m →
      cacheLookup (run_metadata_calls cache calls) id = some m
  | [], _, h => h
  | c :: rest, _, h =>
    run_metadata_calls_preserves rest _
      (get_arxiv_metadata_preserves h c.2 c.1)

theorem get_arxiv_metadata_success_cached
    {cache : List (String × ArxivMetadata)}
    {fetch : String → Option ArxivMetadata} {id : String}
    {m : ArxivMetadata} {cache' : List (String × ArxivMetadata)} {b : Bool}
    (h : get_arxiv_metadata cache fetch id = (some m, cache', b)) :
    cacheLookup cache' id = some m := by
  cases hl : cacheLookup cache id with
  | some m0 =>
    rw [get_arxiv_metadata, hl] at h
    injection h with h1 h2
    injection h2 with h2 h3
    rw [← h2, hl, h1]
  | none =>
    cases hf : fetch id with
    | none =>
      rw [get_arxiv_metadata, hl, hf] at h
      injection h with h1 h2
      exact Option.noConfusion h1
    | some mf =>
      rw [get_arxiv_metadata, hl, hf] at h
      injection h with h1 h2
      injection h2 with h2 h3
      rw [← h2, cacheLookup_cons]
      simpa using h1

/-- C6: once a metadata fetch for an id has succeeded, the successful record
is cached; the next call with that id — and every later call with that id,
whatever other calls happen in between and whatever the network would now
return — yields the identical record with no network fetch performed. -/
theorem c6_metadata_fetch_memoized
    (cache : List (String × ArxivMetadata))
    (fetch : String → Option ArxivMetadata) (id : String)
    (m : ArxivMetadata) (cache' : List (String × ArxivMetadata)) (b : Bool)
    (h : get_arxiv_metadata cache fetch id = (some m, cache', b)) :
    (∀ fetch2 : String → Option ArxivMetadata,
        get_arxiv_metadata cache' fetch2 id = (some m, cache', false))
    ∧ (∀ (calls : List (String × (String → Option ArxivMetadata)))
          (fetch2 : String → Option ArxivMetadata),
        get_arxiv_metadata (run_metadata_calls cache' calls) fetch2 id =
          (some m, run_metadata_calls cache' calls, false)) := by
  have hc := get_arxiv_metadata_success_cached h
  constructor
  · intro fetch2
    rw [get_arxiv_metadata, hc]
  · intro calls fetch2
    have hp := run_metadata_calls_preserves calls cache' hc
    rw [get_arxiv_metadata, hp]

/-- Witness for C6: after a first successful fetch of id 1234.5678 into an
empty cache, a second call returns the identical record from the cache with
the fetch flag false, even though the network would now return nothing. -/
theorem c6_metadata_fetch_memoized_witness :
    get_arxiv_metadata [("1234.5678", cMeta)] (fun _ => none) "1234.5678" =
      (some cMeta, [("1234.5678", cMeta)], false) :=
  (c6_metadata_fetch_memoized []
    (fun i => if i = "1234.5678" then some cMeta else none) "1234.5678"
    cMeta [("1234.5678", cMeta)] true (by rfl)).1 (fun _ => none)

/-! ## arXiv id extraction (`arxiv_client.py` lines 27-39)

`extract_arxiv_id` runs
`re.search(r'arxiv\.org/(?:abs|pdf|html)/(\d+\.\d+)', url, re.IGNORECASE)`
and returns the captured group.  The embedding implements the same leftmost
search with case-insensitive literal matching and greedy digit runs. -/

/-- Case-insensitive literal match: strip a lowercase pattern from the front
of the input, comparing lowercased input characters against it. -/
def stripCI : List Char → List Char → Option (List Char)
  | [], rest => some rest
  | _ :: _, [] => none
  | q :: qs, c :: cs => if c.toLower = q then stripCI qs cs else none

/-- Strip the case-insensitive literal part
`arxiv.org/(abs|pdf|html)/` from the front of the input. -/
def stripArxivLit (l : List Char) : Option (List Char) :=
  match stripCI "arxiv.org/".data l with
  | none => none
  | some r1 =>
    match stripCI "abs/".data r1 with
    | some r => some r
    | none =>
      match stripCI "pdf/".data r1 with
      | some r => some r
      | none => stripCI "html/".data r1

/-- After the literal part, expect a dot-separated pair of non-empty greedy
digit runs `(\d+\.\d+)`: `d1` is the first (already taken) digit run and the
second argument is the remaining input after it. -/
def dotThenDigits (d1 : List Char) : List Char → Option (List Char)
  | c :: r4 =>
    if c = '.' then
      let d2 := r4.takeWhile Char.isDigit
      if d1.isEmpty || d2.isEmpty then none
      else some (d1 ++ '.' :: d2)
    else none
  | [] => none

/-- Attempt to match `arxiv.org/(abs|pdf|html)/(\d+\.\d+)` at the head of
the input, returning the captured id characters. -/
def arxivMatchHere (l : List Char) : Option (List Char) :=
  match stripArxivLit l with
  | none => none
  | some r2 =>
    dotThenDigits (r2.takeWhile Char.isDigit) (r2.dropWhile Char.isDigit)

/-- Leftmost search of the pattern over the URL (`re.search`). -/
def searchArxiv : List Char → Option (List Char)
  | [] => none
  | c :: cs =>
    match arxivMatchHere (c :: cs) with
    | some cap => some cap
    | none => searchArxiv cs

/-- `extract_arxiv_id`: return the captured arXiv id when the URL contains
the pattern, None otherwise. -/
def extract_arxiv_id (url : String) : Option String :=
  (searchArxiv url.data).map String.mk

theorem searchArxiv_cons_of_none {c : Char} {cs : List Char}
    (h : arxivMatchHere (c :: cs) = none) :
    searchArxiv (c :: cs) = searchArxiv cs := by
  simp only [searchArxiv, h]

theorem searchArxiv_cons_of_some {c : Char} {cs : List Char}
    {cap : List Char} (h : arxivMatchHere (c :: cs) = some cap) :
    searchArxiv (c :: cs) = some cap := by
  simp only [searchArxiv, h]

theorem takeWhile_all {p : Char → Bool} :
    ∀ l : List Char, (∀ x ∈ l, p x = true) → l.takeWhile p = l
  | [], _ => rfl
  | x :: xs, h => by
    rw [List.takeWhile_cons, if_pos (h x (List.mem_cons_self ..))]
    rw [takeWhile_all xs (fun y hy => h y (List.mem_cons_of_mem _ hy))]

theorem takeWhile_append_stop {p : Char → Bool} :
    ∀ (d : List Char) (c : Char) (r : List Char),
      (∀ x ∈ d, p x = true) → p c = false →
      (d ++ c :: r).takeWhile p = d ∧ (d ++ c :: r).dropWhile p = c :: r
  | [], c, r, _, hc => by
    constructor
    · rw [List.nil_append, List.takeWhile_cons, if_neg (by simp [hc])]
    · rw [List.nil_append, List.dropWhile_cons, if_neg (by simp [hc])]
  | x :: d, c, r, hd, hc => by
    have hx : p x = true := hd x (List.mem_cons_self ..)
    have hd' : ∀ y ∈ d, p y = true :=
      fun y hy => hd y (List.mem_cons_of_mem _ hy)
    obtain ⟨ht, hdr⟩ := takeWhile_append_stop d c r hd' hc
    constructor
    · rw [List.cons_append, List.takeWhile_cons, if_pos hx, ht]
    · rw [List.cons_append, List.dropWhile_cons, if_pos hx, hdr]

theorem arxivMatchHere_at_id (lead : List Char) (d1 d2 : List Char)
    (h1 : d1 ≠ []) (h2 : d2 ≠ [])
    (hd1 : ∀ c ∈ d1, c.isDigit = true) (hd2 : ∀ c ∈ d2, c.isDigit = true)
    (hs : ∀ r : List Char, stripArxivLit (lead ++ r) = some r) :
    arxivMatchHere (lead ++ (d1 ++ '.' :: d2)) = some (d1 ++ '.' :: d2) := by
  rw [arxivMatchHere, hs (d1 ++ '.' :: d2)]
  have hdot : Char.isDigit '.' = false := rfl
  obtain ⟨ht, hdr⟩ := takeWhile_append_stop d1 '.' d2 hd1 hdot
  simp only [ht, hdr, dotThenDigits]
  rw [if_pos trivial, takeWhile_all d2 hd2, if_neg]
  simp [List.isEmpty_iff, h1, h2]

theorem stripCI_decomp :
    ∀ (pat l r : List Char), stripCI pat l = some r →
      ∃ lit, l = lit ++ r ∧ lit.map Char.toLower = pat
  | [], l, r, h => by
    rw [stripCI] at h
    injection h with h
    exact ⟨[], by simp [h], rfl⟩
  | q :: qs, [], r, h => by
    rw [stripCI] at h
    exact Option.noConfusion h
  | q :: qs, c :: cs, r, h => by
    rw [stripCI] at h
    by_cases hc : c.toLower = q
    · rw [if_pos hc] at h
      obtain ⟨lit, he, hm⟩ := stripCI_decomp qs cs r h
      exact ⟨c :: lit, by simp [he], by simp [hm, hc]⟩
    · rw [if_neg hc] at h
      exact Option.noConfusion h

theorem stripArxivLit_decomp {l r : List Char}
    (h : stripArxivLit l = some r) :
    ∃ lit p, (p = "abs/".data ∨ p = "pdf/".data ∨ p = "html/".data) ∧
      lit.map Char.toLower = "arxiv.org/".data ++ p ∧ l = lit ++ r := by
  rw [stripArxivLit] at h
  rcases h1 : stripCI "arxiv.org/".data l with _ | r1 <;> rw [h1] at h
  · exact Option.noConfusion h
  · obtain ⟨lit1, he1, hm1⟩ := stripCI_decomp _ _ _ h1
    simp only at h
    rcases h2 : stripCI "abs/".data r1 with _ | r2 <;> rw [h2] at h
    · simp only at h
      rcases h3 : stripCI "pdf/".data r1 with _ | r3 <;> rw [h3] at h
      · simp only at h
        obtain ⟨lit2, he2, hm2⟩ := stripCI_decomp _ _ _ h
        exact ⟨lit1 ++ lit2, "html/".data, Or.inr (Or.inr rfl),
          by simp [hm1, hm2], by simp [he1, he2]⟩
      · simp only [Option.some.injEq] at h
        subst h
        obtain ⟨lit2, he2, hm2⟩ := stripCI_decomp _ _ _ h3
        exact ⟨lit1 ++ lit2, "pdf/".data, Or.inr (Or.inl rfl),
          by simp [hm1, hm2], by simp [he1, he2]⟩
    · simp only [Option.some.injEq] at h
      subst h
      obtain ⟨lit2, he2, hm2⟩ := stripCI_decomp _ _ _ h2
      exact ⟨lit1 ++ lit2, "abs/".data, Or.inl rfl,
        by simp [hm1, hm2], by simp [he1, he2]⟩

theorem arxivMatchHere_decomp {l cap : List Char}
    (h : arxivMatchHere l = some cap) :
    ∃ lit p d1 d2 rest,
      (p = "abs/".data ∨ p = "pdf/".data ∨ p = "html/".data) ∧
      lit.map Char.toLower = "arxiv.org/".data ++ p ∧
      d1 ≠ [] ∧ d2 ≠ [] ∧
      (∀ c ∈ d1, c.isDigit = true) ∧ (∀ c ∈ d2, c.isDigit = true) ∧
      l = lit ++ (d1 ++ '.' :: (d2 ++ rest)) ∧ cap = d1 ++ '.' :: d2 := by
  rw [arxivMatchHere] at h
  rcases hs : stripArxivLit l with _ | r2 <;> rw [hs] at h
  · exact Option.noConfusion h
  · simp only at h
    obtain ⟨lit, p, hp, hm, he⟩ := stripArxivLit_decomp hs
    rcases hdw : r2.dropWhile Char.isDigit with _ | ⟨c, r4⟩ <;> rw [hdw] at h
    · rw [dotThenDigits] at h
      exact Option.noConfusion h
    · rw [dotThenDigits] at h
      by_cases hc : c = '.'
      · rw [if_pos hc] at h
        by_cases hemp : ((r2.takeWhile Char.isDigit).isEmpty ||
            (r4.takeWhile Char.isDigit).isEmpty) = true
        · rw [if_pos hemp] at h
          exact Option.noConfusion h
        · rw [if_neg hemp] at h
          simp only [Option.some.injEq] at h
          subst h
          subst hc
          rw [Bool.or_eq_true, not_or] at hemp
          obtain ⟨hne1, hne2⟩ := hemp
          refine ⟨lit, p, r2.takeWhile Char.isDigit,
            r4.takeWhile Char.isDigit, r4.dropWhile Char.isDigit,
            hp, hm, ?_, ?_, ?_, ?_, ?_, rfl⟩
          · intro hnil
            exact hne1 (by simp [hnil])
          · intro hnil
            exact hne2 (by simp [hnil])
          · intro x hx
            exact List.mem_takeWhile_imp hx
          · intro x hx
            exact List.mem_takeWhile_imp hx
          · rw [he]
            congr 1
            have hr2 : r2.takeWhile Char.isDigit ++
                r2.dropWhile Char.isDigit = r2 :=
              List.takeWhile_append_dropWhile _ _
            have hr4 : r4.takeWhile Char.isDigit ++
                r4.dropWhile Char.isDigit = r4 :=
              List.takeWhile_append_dropWhile _ _
            rw [hr4, ← hdw]
            exact hr2.symm
      · rw [if_neg hc] at h
        exact Option.noConfusion h

theorem searchArxiv_decomp :
    ∀ {l cap : List Char}, searchArxiv l = some cap →
      ∃ pre suf, l = pre ++ suf ∧ arxivMatchHere suf = some cap
  | [], cap, h => by
    rw [searchArxiv] at h
    exact Option.noConfusion h
  | c :: cs, cap, h => by
    rw [searchArxiv] at h
    rcases hm : arxivMatchHere (c :: cs) with _ | cap0 <;> rw [hm] at h
    · simp only at h
      obtain ⟨pre, suf, he, hsm⟩ := searchArxiv_decomp h
      exact ⟨c :: pre, suf, by simp [he], hsm⟩
    · simp only [Option.some.injEq] at h
      subst h
      exact ⟨[], c :: cs, rfl, hm⟩

/-- Property of a URL containing an
`arxiv.org/(abs|pdf|html)/<digits>.<digits>` pattern occurrence: some split
of its characters has a case-insensitive copy of the literal part followed by
two non-empty digit runs separated by a dot. -/
def containsArxivSegment (l : List Char) : Prop :=
  ∃ pre lit p d1 d2 rest,
    (p = "abs/".data ∨ p = "pdf/".data ∨ p = "html/".data) ∧
    lit.map Char.toLower = "arxiv.org/".data ++ p ∧
    d1 ≠ [] ∧ d2 ≠ [] ∧
    (∀ c ∈ d1, c.isDigit = true) ∧ (∀ c ∈ d2, c.isDigit = true) ∧
    l = pre ++ (lit ++ (d1 ++ '.' :: (d2 ++ rest)))

theorem searchArxiv_of_matchHere : ∀ {l cap : List Char},
    arxivMatchHere l = some cap → searchArxiv l = some cap
  | [], cap, h => by
    rw [show arxivMatchHere [] = none from rfl] at h
    exact Option.noConfusion h
  | _ :: _, _, h => searchArxiv_cons_of_some h

/-- C10: round trip between arXiv URL construction and id extraction: for
every identifier of the shape digits.digits and every path form among abs,
pdf, html, `extract_arxiv_id` recovers exactly the identifier from
`https://arxiv.org/<path>/<id>`; and for every URL containing no
case-insensitive `arxiv.org/(abs|pdf|html)/<digits>.<digits>` occurrence it
returns None. -/
theorem c10_extract_arxiv_id_roundtrip :
    (∀ ps : String, ps ∈ ["abs", "pdf", "html"] →
      ∀ d1 d2 : List Char, d1 ≠ [] → d2 ≠ [] →
        (∀ c ∈ d1, c.isDigit = true) → (∀ c ∈ d2, c.isDigit = true) →
        extract_arxiv_id
            ("https://arxiv.org/" ++ ps ++ "/" ++
              String.mk (d1 ++ '.' :: d2)) =
          some (String.mk (d1 ++ '.' :: d2)))
    ∧ (∀ url : String, ¬ containsArxivSegment url.data →
        extract_arxiv_id url = none) := by
  constructor
  · intro ps hps d1 d2 h1 h2 hd1 hd2
    have hch : ∀ rest : List Char, arxivMatchHere ('h' :: rest) = none :=
      fun _ => rfl
    have hct : ∀ rest : List Char, arxivMatchHere ('t' :: rest) = none :=
      fun _ => rfl
    have hcp : ∀ rest : List Char, arxivMatchHere ('p' :: rest) = none :=
      fun _ => rfl
    have hcs : ∀ rest : List Char, arxivMatchHere ('s' :: rest) = none :=
      fun _ => rfl
    have hcc : ∀ rest : List Char, arxivMatchHere (':' :: rest) = none :=
      fun _ => rfl
    have hcl : ∀ rest : List Char, arxivMatchHere ('/' :: rest) = none :=
      fun _ => rfl
    simp only [List.mem_cons, List.mem_singleton, List.not_mem_nil,
      or_false] at hps
    rw [extract_arxiv_id]
    rcases hps with rfl | rfl | rfl
    · have e1 : ("https://arxiv.org/" ++ "abs" ++ "/" ++
          String.mk (d1 ++ '.' :: d2)).data =
          'h' :: 't' :: 't' :: 'p' :: 's' :: ':' :: '/' :: '/' ::
            ("arxiv.org/abs/".data ++ (d1 ++ '.' :: d2)) := by
        simp only [String.data_append]
        rfl
      rw [e1]
      rw [searchArxiv_cons_of_none (hch _), searchArxiv_cons_of_none (hct _),
        searchArxiv_cons_of_none (hct _), searchArxiv_cons_of_none (hcp _),
        searchArxiv_cons_of_none (hcs _), searchArxiv_cons_of_none (hcc _),
        searchArxiv_cons_of_none (hcl _), searchArxiv_cons_of_none (hcl _)]
      rw [searchArxiv_of_matchHere
        (arxivMatchHere_at_id ("arxiv.org/abs/".data) d1 d2 h1 h2 hd1 hd2
          (fun _ => rfl))]
      rfl
    · have e1 : ("https://arxiv.org/" ++ "pdf" ++ "/" ++
          String.mk (d1 ++ '.' :: d2)).data =
          'h' :: 't' :: 't' :: 'p' :: 's' :: ':' :: '/' :: '/' ::
            ("arxiv.org/pdf/".data ++ (d1 ++ '.' :: d2)) := by
        simp only [String.data_append]
        rfl
      rw [e1]
      rw [searchArxiv_cons_of_none (hch _), searchArxiv_cons_of_none (hct _),
        searchArxiv_cons_of_none (hct _), searchArxiv_cons_of_none (hcp _),
        searchArxiv_cons_of_none (hcs _), searchArxiv_cons_of_none (hcc _),
        searchArxiv_cons_of_none (hcl _), searchArxiv_cons_of_none (hcl _)]
      rw [searchArxiv_of_matchHere
        (arxivMatchHere_at_id ("arxiv.org/pdf/".data) d1 d2 h1 h2 hd1 hd2
          (fun _ => rfl))]
      rfl
    · have e1 : ("https://arxiv.org/" ++ "html" ++ "/" ++
          String.mk (d1 ++ '.' :: d2)).data =
          'h' :: 't' :: 't' :: 'p' :: 's' :: ':' :: '/' :: '/' ::
            ("arxiv.org/html/".data ++ (d1 ++ '.' :: d2)) := by
        simp only [String.data_append]
        rfl
      rw [e1]
      rw [searchArxiv_cons_of_none (hch _), searchArxiv_cons_of_none (hct _),
        searchArxiv_cons_of_none (hct _), searchArxiv_cons_of_none (hcp _),
        searchArxiv_cons_of_none (hcs _), searchArxiv_cons_of_none (hcc _),
        searchArxiv_cons_of_none (hcl _), searchArxiv_cons_of_none (hcl _)]
      rw [searchArxiv_of_matchHere
        (arxivMatchHere_at_id ("arxiv.org/html/".data) d1 d2 h1 h2 hd1 hd2
          (fun _ => rfl))]
      rfl
  · intro url hnc
    rcases hx : extract_arxiv_id url with _ | s
    · rfl
    · exfalso
      rw [extract_arxiv_id] at hx
      rcases hsa : searchArxiv url.data with _ | cap <;> rw [hsa] at hx
      · exact Option.noConfusion hx
      · obtain ⟨pre, suf, he, hmh⟩ := searchArxiv_decomp hsa
        obtain ⟨lit, p, d1, d2, rest, hp, hm, h1, h2, hd1, hd2, hsuf, _⟩ :=
          arxivMatchHere_decomp hmh
        exact hnc ⟨pre, lit, p, d1, d2, rest, hp, hm, h1, h2, hd1, hd2,
          by rw [he, hsuf]⟩

/-- Witness for C10: the id 12.34 survives the round trip through an abs
URL, and the two-character string xy, which cannot contain the pattern,
extracts to None. -/
theorem c10_extract_arxiv_id_roundtrip_witness :
    extract_arxiv_id ("https://arxiv.org/" ++ "abs" ++ "/" ++
        String.mk (['1', '2'] ++ '.' :: ['3', '4'])) =
      some (String.mk (['1', '2'] ++ '.' :: ['3', '4']))
    ∧ extract_arxiv_id "xy" = none := by
  constructor
  · exact c10_extract_arxiv_id_roundtrip.1 "abs" (by decide)
      ['1', '2'] ['3', '4'] (by decide) (by decide) (by decide) (by decide)
  · refine c10_extract_arxiv_id_roundtrip.2 "xy" ?_
    rintro ⟨pre, lit, p, d1, d2, rest, hp, hm, h1, h2, hd1, hd2, heq⟩
    have hL := congrArg List.length heq
    simp only [List.length_append, List.length_cons] at hL
    simp only [List.length_nil] at hL
    have hlit : lit.length = 10 + p.length := by
      have hc := congrArg List.length hm
      rw [List.length_map, List.length_append] at hc
      simpa using hc
    have hd1p : 0 < d1.length := List.length_pos.mpr h1
    omega

/-! ## Structured-export extraction strategy (`scraper.py` lines 133-310) -/

/-- JavaScript `Math.round(rect.y / 100) * 100` on an integer pixel
position: round to the nearest multiple of 100 (halves toward positive
infinity). -/
def jsRound100 (y : Int) : Int := ((y + 50).fdiv 100) * 100

/-- One share affordance, identified by its vertical screen position and its
document index. -/
structure ShareButton where
  y : Int
  idx : Nat
deriving DecidableEq, Repr

/-- Share-affordance deduplication (`scraper.py` lines 144-157): keep one
button per rounded-to-100px vertical position, the first in document
order. -/
def share_button_filter (btns : List ShareButton) : List ShareButton :=
  dedupByKey (fun b => jsRound100 b.y) btns

/-- Literal (case-sensitive) strip of a pattern from the head of the
input. -/
def stripExact : List Char → List Char → Option (List Char)
  | [], rest => some rest
  | _ :: _, [] => none
  | q :: qs, c :: cs => if c = q then stripExact qs cs else none

/-- Single-position attempt of a bibtex field pattern: strip the literal
field prefix, then capture a non-empty greedy run of non-brace characters
that is closed by a brace (the capture group of `field=\x7b([^\x7d]+)\x7d`). -/
def matchFieldHere (pat l : List Char) : Option (List Char) :=
  match stripExact pat l with
  | none => none
  | some rest =>
    let cap := rest.takeWhile (fun c => c != '\x7d')
    match rest.dropWhile (fun c => c != '\x7d') with
    | [] => none
    | _ :: _ => if cap.isEmpty then none else some cap

/-- Leftmost search of a bibtex field pattern, as JavaScript
`bibtex.match(...)` does. -/
def scanBraceField (pat : List Char) : List Char → Option (List Char)
  | [] => none
  | c :: cs =>
    match matchFieldHere pat (c :: cs) with
    | some cap => some cap
    | none => scanBraceField pat cs

/-- Field extraction from the exported citation text: the first
`<field>=\x7b...\x7d` occurrence with a non-empty brace-free body. -/
def bibtexField (field bib : String) : Option String :=
  (scanBraceField (field.data ++ ['=', '\x7b']) bib.data).map String.mk

/-- Parsed fields of one exported citation record (`scraper.py` lines
213-310). -/
structure ExportRecord where
  title : String
  authors : String
  arxivId : Option String
  paperUrl : Option String
  isArxiv : Bool
  journal : Option String
  booktitle : Option String
  year : Option String
deriving DecidableEq, Repr

/-- Structured-export parsing of one exported citation string: extract
author, title, journal, booktitle, volume and year with brace-capture
patterns; classify the record as identifier-bearing exactly when the journal
field is arXiv and a volume field is present (the volume then being the
arXiv id); keep the record only when both title and authors parsed.  The
DOM fallback that recovers a title-matching link URL for non-arXiv papers is
outside this pure parse, so `paperUrl` is only set for arXiv records. -/
def parse_bibtex_record (bib : String) : Option ExportRecord :=
  let authors := bibtexField "author" bib
  let title := bibtexField "title" bib
  let journal := bibtexField "journal" bib
  let booktitle := bibtexField "booktitle" bib
  let volume := bibtexField "volume" bib
  let year := bibtexField "year" bib
  let isArxiv := journal == some "arXiv" && volume.isSome
  match title, authors with
  | some t, some a =>
    some { title := t
           authors := a
           arxivId := if isArxiv then volume else none
           paperUrl := if isArxiv then
               volume.map (fun v => "https://arxiv.org/abs/" ++ v)
             else none
           isArxiv := isArxiv
           journal := journal
           booktitle := booktitle
           year := year }
  | _, _ => none

/-! ## Link-grouping extraction strategy (spec 4.2(a)) -/

/-- Modelled from the spec: one outbound page link with its visible text.
The link-grouping extraction strategy of spec 4.2(a) is not present under
src/ — the snapshot implements only the structured-export strategy — so the
strategy is modelled here from the specification words. -/
structure PageLink where
  href : String
  text : String
deriving DecidableEq, Repr

/-- Modelled from the spec: author-list text heuristic — visible text longer
than 30 characters containing a comma. -/
def linkTextIsAuthors (t : String) : Bool :=
  t.data.length > 30 && t.data.contains ','

/-- Modelled from the spec: title text heuristic — visible text longer than
30 characters with no comma and no pipe. -/
def linkTextIsTitle (t : String) : Bool :=
  t.data.length > 30 && !t.data.contains ',' && !t.data.contains '|'

/-- Modelled from the spec: a raw record produced by the link-grouping
strategy. -/
structure LinkGroupRecord where
  arxivId : String
  title : String
  authors : String
deriving DecidableEq, Repr

/-- Modelled from the spec: group all outbound scholarly-domain links by the
identifier embedded in their target (reusing `extract_arxiv_id`), and for
each identifier in first-seen order keep a record exactly when its group
contains both a title-classified and an authors-classified link text. -/
def linkGroupFor (links : List PageLink) (id : String) :
    Option LinkGroupRecord :=
  let group := (links.filter
    (fun l => extract_arxiv_id l.href == some id)).map PageLink.text
  match group.find? linkTextIsTitle, group.find? linkTextIsAuthors with
  | some t, some a => some ⟨id, t, a⟩
  | _, _ => none

/-- Modelled from the spec: the full link-grouping extraction — one record
per distinct embedded identifier in first-seen order, kept when resolvable
by `linkGroupFor`. -/
def link_grouping_extract (links : List PageLink) : List LinkGroupRecord :=
  (dedupByKey (fun s => s)
      (links.filterMap (fun l => extract_arxiv_id l.href))).filterMap
    (linkGroupFor links)

/-- C9: the page data extractor supports two interchangeable extraction
strategies: the structured-export strategy (deduplicating share affordances
by vertical position rounded to the nearest 100 px and parsing author, title
and venue fields out of the exported citation text, classifying a record as
arXiv when the journal is arXiv and a volume is present), and the
link-grouping strategy (grouping scholarly-domain links by embedded
identifier and classifying link text as title or author list by length and
punctuation heuristics). -/
theorem c9_two_extraction_strategies :
    (∀ btns : List ShareButton,
        share_button_filter btns =
          keepFirstByKey (fun b => jsRound100 b.y) btns)
    ∧ (∀ (bib : String) (rec : ExportRecord),
        parse_bibtex_record bib = some rec →
          some rec.title = bibtexField "title" bib ∧
          some rec.authors = bibtexField "author" bib ∧
          rec.journal = bibtexField "journal" bib ∧
          (rec.isArxiv = true ↔
            bibtexField "journal" bib = some "arXiv" ∧
            (bibtexField "volume" bib).isSome = true) ∧
          (rec.isArxiv = true → rec.arxivId = bibtexField "volume" bib))
    ∧ (∀ (links : List PageLink) (rec : LinkGroupRecord),
        rec ∈ link_grouping_extract links →
          linkTextIsTitle rec.title = true ∧
          linkTextIsAuthors rec.authors = true ∧
          (∃ l ∈ links, l.text = rec.title ∧
            extract_arxiv_id l.href = some rec.arxivId) ∧
          (∃ l ∈ links, l.text = rec.authors ∧
            extract_arxiv_id l.href = some rec.arxivId)) := by
  refine ⟨fun btns => dedupByKey_eq_keepFirst _ btns, ?_, ?_⟩
  · intro bib rec h
    rw [parse_bibtex_record] at h
    rcases ht : bibtexField "title" bib with _ | t <;> rw [ht] at h
    · exact Option.noConfusion h
    · rcases ha : bibtexField "author" bib with _ | a <;> rw [ha] at h
      · exact Option.noConfusion h
      · simp only [Option.some.injEq] at h
        subst h
        refine ⟨rfl, rfl, rfl, ?_, ?_⟩
        · simp [Bool.and_eq_true, beq_iff_eq]
        · intro hx
          dsimp only at hx
          simp [hx]
  · intro links rec hrec
    rw [link_grouping_extract, List.mem_filterMap] at hrec
    obtain ⟨id, _, hf⟩ := hrec
    simp only [linkGroupFor] at hf
    rcases hft : ((links.filter
        (fun l => extract_arxiv_id l.href == some id)).map
          PageLink.text).find? linkTextIsTitle with _ | t <;> rw [hft] at hf
    · exact Option.noConfusion hf
    · rcases hfa : ((links.filter
          (fun l => extract_arxiv_id l.href == some id)).map
            PageLink.text).find? linkTextIsAuthors with _ | a <;>
        rw [hfa] at hf
      · exact Option.noConfusion hf
      · simp only [Option.some.injEq] at hf
        subst hf
        have htp := List.find?_some hft
        have hap := List.find?_some hfa
        have htm := List.mem_of_find?_eq_some hft
        have ham := List.mem_of_find?_eq_some hfa
        rw [List.mem_map] at htm ham
        obtain ⟨lt, hltm, hlt⟩ := htm
        obtain ⟨la, hlam, hla⟩ := ham
        rw [List.mem_filter] at hltm hlam
        refine ⟨htp, hap, ⟨lt, hltm.1, hlt, ?_⟩, ⟨la, hlam.1, hla, ?_⟩⟩
        · have := hltm.2
          simpa [beq_iff_eq] using this
        · have := hlam.2
          simpa [beq_iff_eq] using this

/-- Concrete exported citation text used by the C9 witness. -/
def cBib : String :=
  "@article\x7bk,author=\x7bAlice Smith, Bob Jones\x7d,title=\x7bA Paper\x7d,journal=\x7barXiv\x7d,volume=\x7b1234.5678\x7d,year=\x7b2025\x7d\x7d"

/-- The record parsed from `cBib`. -/
def cRec : ExportRecord :=
  { title := "A Paper"
    authors := "Alice Smith, Bob Jones"
    arxivId := some "1234.5678"
    paperUrl := some "https://arxiv.org/abs/1234.5678"
    isArxiv := true
    journal := some "arXiv"
    booktitle := none
    year := some "2025" }

/-- Concrete page links used by the C9 witness: one title-like and one
authors-like link, both carrying arXiv id 12.34. -/
def cLinks : List PageLink :=
  [⟨"https://arxiv.org/abs/12.34",
    "A Sufficiently Long Paper Title About Things"⟩,
   ⟨"https://arxiv.org/abs/12.34",
    "Alice Smith, Bob Jones, Carol White, Dan Brown"⟩]

/-- Witness for C9: both strategies run on concrete inputs — the bibtex
record parses with the arXiv classification, and the link group for id 12.34
is recovered with classified title and author texts. -/
theorem c9_two_extraction_strategies_witness :
    (some cRec.title = bibtexField "title" cBib ∧
      some cRec.authors = bibtexField "author" cBib ∧
      cRec.journal = bibtexField "journal" cBib ∧
      (cRec.isArxiv = true ↔
        bibtexField "journal" cBib = some "arXiv" ∧
        (bibtexField "volume" cBib).isSome = true) ∧
      (cRec.isArxiv = true → cRec.arxivId = bibtexField "volume" cBib))
    ∧ (linkTextIsTitle "A Sufficiently Long Paper Title About Things" = true ∧
        linkTextIsAuthors
          "Alice Smith, Bob Jones, Carol White, Dan Brown" = true ∧
        (∃ l ∈ cLinks,
          l.text = "A Sufficiently Long Paper Title About Things" ∧
          extract_arxiv_id l.href = some "12.34") ∧
        (∃ l ∈ cLinks,
          l.text = "Alice Smith, Bob Jones, Carol White, Dan Brown" ∧
          extract_arxiv_id l.href = some "12.34")) :=
  ⟨c9_two_extraction_strategies.2.1 cBib cRec (by rfl),
   c9_two_extraction_strategies.2.2 cLinks
     ⟨"12.34", "A Sufficiently Long Paper Title About Things",
      "Alice Smith, Bob Jones, Carol White, Dan Brown"⟩ (by decide)⟩
